import Mathlib

/-!
# kvasir: a minimal service registry

A shallow embedding of `index.js`.  The registry keeps its instances in one
LokiJS collection (`servicesCollection`); the collection is modelled by the
behaviour of the calls the program makes (`insert`, `find`, `findOne`,
`update`, `remove`), as a list of documents in insertion order together with
the auto-increment counter `maxId`.  LokiJS writes its stamps (`version`,
`created`, `revision`, `updated`) into the property `meta` of a document, the
very property under which the registry stores the `meta` of a registration;
the model keeps both.  Request values are untyped, as the body parsers deliver
them.  `Date.now()` is an explicit argument `now`, read once per request.
-/

namespace Kvasir

/-! ## JavaScript values -/

/-- A value of a parsed request.  What is nested inside an array or an object
is kept as the text `JSON.stringify` gives for it; a number is an integer (a
fraction behaves like a non-zero integer on every path of the program). -/
inductive JsValue where
  | undefined
  | null
  | bool (b : Bool)
  | number (n : Int)
  | string (s : String)
  | array (items : List String)
  | object (attrs : List (String × String))
  deriving DecidableEq, Repr

/-- JavaScript truthiness: `undefined`, `null`, `false`, `0` and `''` are
falsy, every other value is truthy. -/
def JsValue.truthy : JsValue → Bool
  | .undefined => false
  | .null => false
  | .bool b => b
  | .number n => decide (n ≠ 0)
  | .string s => decide (s ≠ "")
  | .array _ => true
  | .object _ => true

/-- The pieces of `s.split(sep)` for a one-character separator, on the
characters of the string: every occurrence of the separator cuts. -/
def splitChars (sep : Char) : List Char → List (List Char)
  | [] => [[]]
  | c :: cs =>
    if c = sep then [] :: splitChars sep cs
    else
      match splitChars sep cs with
      | [] => [[c]]
      | p :: ps => (c :: p) :: ps

/-- JavaScript `v.split(sep)`: a string is split; no other request value has
a method `split`, the call throws. -/
def split (v : JsValue) (sep : Char) : Except String (List String) :=
  match v with
  | .string s => .ok ((splitChars sep s.data).map String.mk)
  | _ => .error "TypeError: name.split is not a function"

/-- The text `JSON.stringify` gives for the one-character string `c` (for a
character that needs no escape, such as `@`). -/
def jsonOfChar (c : Char) : String := String.mk ['"', c, '"']

/-- JavaScript `v.indexOf(c)` for the one-character string `c`: on a string the
position of the first occurrence, on an array the position of the first
element that is this string, `-1` when there is none; no other request value
has a method `indexOf`, the call throws. -/
def indexOf (v : JsValue) (c : Char) : Except String Int :=
  match v with
  | .string s => .ok (if c ∈ s.data then (s.data.indexOf c : Int) else -1)
  | .array items =>
    .ok (if jsonOfChar c ∈ items then (items.indexOf (jsonOfChar c) : Int) else -1)
  | _ => .error "TypeError: name.indexOf is not a function"

/-- JavaScript `a || b` for a string-or-null `a`: `a` when it is truthy (a
non-empty string), `b` otherwise. -/
def jsOr (a : Option String) (b : JsValue) : JsValue :=
  match a with
  | some s => if s = "" then b else .string s
  | none => b

/-! ## Documents and the collection -/

/-- The property `meta` of a stored document: the own properties of the value
the registrant supplied (key and JSON text), and the stamps LokiJS writes into
the same object.  A supplied property named like a stamp is overwritten by the
stamp and is not kept in `attrs`. -/
structure StoredMeta where
  attrs : List (String × String)
  version : Nat
  created : Nat
  revision : Nat
  /-- The stamp `updated`, absent until the first update. -/
  updated : Option Nat
  deriving DecidableEq, Repr

/-- The keys of the elements of an array: their positions. -/
def indexKeys (start : Nat) : List String → List (String × String)
  | [] => []
  | t :: ts => (toString start, t) :: indexKeys (start + 1) ts

/-- The own properties of a value that can carry the stamps: `undefined` (the
library puts a fresh object in its place), an object, an array.  On `null` and
on a primitive value the first stamp assignment throws. -/
def ownAttrs : JsValue → Option (List (String × String))
  | .undefined => some []
  | .object attrs => some attrs
  | .array items => some (indexKeys 0 items)
  | _ => none

/-- The `meta` of a document right after `insert`: the stamps `version`,
`created` and `revision` are set. -/
def freshMeta (now : Nat) (attrs : List (String × String)) : StoredMeta :=
  { attrs := attrs.filter
      (fun kv => decide (kv.1 ≠ "version" ∧ kv.1 ≠ "created" ∧ kv.1 ≠ "revision")),
    version := 0, created := now, revision := 0, updated := none }

/-- The `meta` of a document after `update`: `updated` is set and `revision`
is incremented. -/
def StoredMeta.touched (m : StoredMeta) (now : Nat) : StoredMeta :=
  { m with attrs := m.attrs.filter (fun kv => decide (kv.1 ≠ "updated")),
           updated := some now, revision := m.revision + 1 }

/-- The object `registerInstance` hands to `insert`. -/
structure Record where
  name : JsValue
  host : JsValue
  port : JsValue
  version : Option String
  _heartbeat : Nat
  meta : JsValue
  deriving DecidableEq, Repr

/-- A stored document: the inserted object with its `$loki` id and the stamped
`meta`. -/
structure Doc where
  name : JsValue
  host : JsValue
  port : JsValue
  version : Option String
  _heartbeat : Nat
  meta : StoredMeta
  /-- The `$loki` property. -/
  loki : Nat
  deriving DecidableEq, Repr

/-- The collection: documents in insertion order and the id counter. -/
structure Collection where
  data : List Doc
  maxId : Nat
  deriving DecidableEq, Repr

/-- The collection as `db.addCollection('services', ...)` returns it. -/
def Collection.empty : Collection := { data := [], maxId := 0 }

/-- A number used as id in a query: `some n` for the natural number `n`,
`none` for every other number (`NaN`, a fraction, a negative number); such a
number equals no `$loki`. -/
abbrev JsNumber := Option Nat

/-- The queries the program passes to `find` and `findOne`. -/
inductive Query where
  /-- No argument: `find()`. -/
  | all
  /-- The query `{name: v}` for a string `v`. -/
  | name (v : String)
  /-- The query `{version: v}` for a string `v`. -/
  | version (v : String)
  /-- The query `{$loki: n}`. -/
  | loki (n : JsNumber)
  /-- The query `{$and: [q1, q2]}`. -/
  | and (q1 q2 : Query)
  deriving DecidableEq, Repr

/-- Whether a document satisfies a query (strict equality per field). -/
def Query.test : Query → Doc → Bool
  | .all, _ => true
  | .name v, d => decide (d.name = .string v)
  | .version v, d => decide (d.version = some v)
  | .loki n, d => decide (n = some d.loki)
  | .and q1 q2, d => q1.test d && q2.test d

namespace Collection

/-- LokiJS `insert` at time `now`: the counter is incremented, the object gets
the new counter value as `$loki`, its `meta` is stamped and it is appended.
When `meta` cannot carry the stamps the call throws after the counter has been
incremented and nothing is appended. -/
def insert (c : Collection) (now : Nat) (r : Record) : Collection × Except String Doc :=
  let maxId := c.maxId + 1
  match ownAttrs r.meta with
  | none => ({ c with maxId := maxId }, .error "TypeError")
  | some attrs =>
    let doc : Doc :=
      { name := r.name, host := r.host, port := r.port, version := r.version,
        _heartbeat := r._heartbeat, meta := freshMeta now attrs, loki := maxId }
    ({ data := c.data ++ [doc], maxId := maxId }, .ok doc)

/-- LokiJS `find(query)`: the documents that satisfy the query. -/
def find (c : Collection) (q : Query) : List Doc :=
  c.data.filter q.test

/-- LokiJS `findOne(query)`: the first document that satisfies the query, or
`null`. -/
def findOne (c : Collection) (q : Query) : Option Doc :=
  (c.find q).head?

/-- LokiJS `get(id, true)`: the position of the document with that `$loki`. -/
def position (c : Collection) (id : Nat) : Option Nat :=
  c.data.findIdx? (fun d => d.loki = id)

/-- LokiJS `update(doc)` at time `now`: the document at the position of
`doc.$loki` is replaced by `doc`, whose `meta` gets the stamp `updated` and
the next `revision`; the stamped document is returned.  When no document has
that `$loki` the call throws. -/
def update (c : Collection) (now : Nat) (doc : Doc) : Except String (Collection × Doc) :=
  match c.position doc.loki with
  | some i =>
    let doc := { doc with meta := doc.meta.touched now }
    .ok ({ c with data := c.data.set i doc }, doc)
  | none => .error "Trying to update a document not in collection."

/-- Removal of one document: the entry at the position of `doc.$loki` is
spliced out.  (When there is none the library catches its own error and
returns `null`; the collection is as before.)  The counter is not touched. -/
def removeDoc (c : Collection) (doc : Doc) : Collection :=
  match c.position doc.loki with
  | some i => { c with data := c.data.eraseIdx i }
  | none => c

end Collection

/-- What the program passes to `remove`: a document, an array of documents (a
`find` result), or `null`. -/
inductive RemoveArg where
  | doc (d : Doc)
  | docs (ds : List Doc)
  | null
  deriving DecidableEq, Repr

/-- LokiJS `remove(arg)`: the documents of an array are removed; a document is
removed; on `null` the call throws (`hasOwnProperty` of `null`). -/
def Collection.remove (c : Collection) : RemoveArg → Except String Collection
  | .doc d => .ok (c.removeDoc d)
  | .docs ds => .ok (ds.foldl Collection.removeDoc c)
  | .null => .error "TypeError"

/-! ## LokiJS helper functions of `index.js` -/

/-- The object `registerInstance` returns. -/
structure Instance where
  name : JsValue
  host : JsValue
  port : JsValue
  version : Option String
  id : Nat
  meta : StoredMeta
  _heartbeat : Nat
  deriving DecidableEq, Repr

/-- The values of `_name` and `version` after the `if (name.indexOf('@') >= 0)`
block of `registerInstance`, or the error thrown in it. -/
def nameAndVersion (name : JsValue) : Except String (Option String × Option String) :=
  match indexOf name '@' with
  | .error e => .error e
  | .ok i =>
    if i ≥ 0 then
      match split name '@' with
      | .error e => .error e
      | .ok t => .ok (t[0]?, t[1]?)
    else .ok (none, none)

/-- The function `registerInstance(name, host, port, meta)` at time `now`: the
collection after the call and the returned object, or the error thrown. -/
def registerInstance (c : Collection) (now : Nat) (name host port meta : JsValue) :
    Collection × Except String Instance :=
  match nameAndVersion name with
  | .error e => (c, .error e)
  | .ok nv =>
    let _name := nv.1
    let version := nv.2
    let r := c.insert now
      { name := jsOr _name name, host := host, port := port, version := version,
        _heartbeat := now, meta := meta }
    match r.2 with
    | .error e => (r.1, .error e)
    | .ok doc =>
      (r.1, .ok
        { name := doc.name, host := doc.host, port := doc.port, version := doc.version,
          id := doc.loki, meta := doc.meta, _heartbeat := doc._heartbeat })

/-- The function `deregisterInstance(instance)`: `true` unless `remove` throws. -/
def deregisterInstance (c : Collection) (inst : RemoveArg) : Collection × Bool :=
  match c.remove inst with
  | .ok c' => (c', true)
  | .error _ => (c, false)

/-- The function `deregisterInstanceById(id)`: the `find` result (an array) is
handed to `deregisterInstance`. -/
def deregisterInstanceById (c : Collection) (id : Nat) : Collection × Bool :=
  let res := c.find (.loki (some id))
  deregisterInstance c (.docs res)

/-- The function `getInstanceById(id)`; the argument is the value of
`Number(id)`. -/
def getInstanceById (c : Collection) (id : JsNumber) : Option Doc :=
  c.findOne (.loki id)

/-! ## API routes -/

/-- One element of the array `GET /services/:name` answers with. -/
structure Entry where
  name : JsValue
  host : JsValue
  port : JsValue
  version : Option String
  deriving DecidableEq, Repr

/-- The bodies the routes send. -/
inductive Body where
  /-- The index `{self: '/', services: '/services'}`. -/
  | index
  /-- An array of stored documents. -/
  | docs (ds : List Doc)
  /-- An array of name / host / port / version entries. -/
  | entries (es : List Entry)
  /-- The object `{message: m}`. -/
  | message (m : String)
  /-- The object returned by `registerInstance`. -/
  | created (i : Instance)
  /-- The object `{success: true, message: 'heartbeat accepted', doc: doc}`. -/
  | heartbeat (doc : Doc)
  /-- The object `{success: r}`. -/
  | success (r : Bool)
  /-- The error page of the framework for an error thrown in a handler. -/
  | error (e : String)
  deriving DecidableEq, Repr

/-- A response: status code and body (`res.json` alone is status 200; an error
thrown in a handler is answered with status 500). -/
structure Response where
  status : Nat
  body : Body
  deriving DecidableEq, Repr

/-- What `POST /services` reads of a request: the body fields as parsed
(`undefined` when a field is absent) and `req.ip` (`undefined` when the
connection has no remote address). -/
structure RegisterRequest where
  name : JsValue
  host : JsValue
  port : JsValue
  meta : JsValue
  ip : JsValue
  deriving DecidableEq, Repr

/-- A string-valued query parameter that is truthy: present and not `''`. -/
def truthyString : Option String → Option String
  | some s => if s = "" then none else some s
  | none => none

/-- The host after `if (!host) { host = req.ip; }`. -/
def filledHost (req : RegisterRequest) : JsValue :=
  if !req.host.truthy then req.ip else req.host

/-- The route `GET /`. -/
def getIndex : Response := { status := 200, body := .index }

/-- The route `GET /services`. -/
def getServices (c : Collection) : Response :=
  let r := c.find .all
  { status := 200, body := .docs r }

/-- The route `GET /services/:name` with the query parameter `version`
(`none` when the query has none). -/
def getServicesByName (c : Collection) (name : String) (version : Option String) :
    Response :=
  let r :=
    match truthyString version with
    | some version => c.find (.and (.name name) (.version version))
    | none => c.find (.name name)
  let final := r.foldl
    (fun (final : List Entry) val =>
      final ++ [{ name := val.name, host := val.host, port := val.port,
                  version := val.version }])
    []
  { status := 200, body := .entries final }

/-- The route `POST /services` at time `now`.  An error thrown by
`registerInstance` is answered with status 500.  The object `registerInstance`
returns is always truthy, so the second 400 answer of the source is never
sent. -/
def createService (c : Collection) (now : Nat) (req : RegisterRequest) :
    Collection × Response :=
  let name := req.name
  let host := filledHost req
  let port := req.port
  let meta := req.meta
  if !(name.truthy && host.truthy && port.truthy) then
    (c, { status := 400, body := .message "Either host, port or name missing." })
  else
    let r := registerInstance c now name host port meta
    match r.2 with
    | .error e => (r.1, { status := 500, body := .error e })
    | .ok inst => (r.1, { status := 201, body := .created inst })

/-- The route `POST /services/:id` at time `now`; `id` is the value of
`Number(req.params.id)`.  The document found is the stored object itself, so
`update` finds its position; the 500 answer is never sent. -/
def serviceHeartbeat (c : Collection) (now : Nat) (id : JsNumber) :
    Collection × Response :=
  match getInstanceById c id with
  | none => (c, { status := 404, body := .message "No such instance" })
  | some inst =>
    let inst := { inst with _heartbeat := now }
    match c.update now inst with
    | .ok r => (r.1, { status := 202, body := .heartbeat r.2 })
    | .error e => (c, { status := 500, body := .error e })

/-- The route `DELETE /services/:id`; `id` is the value of
`Number(req.params.id)`. -/
def deleteService (c : Collection) (id : JsNumber) : Collection × Response :=
  match getInstanceById c id with
  | none => (c, { status := 404, body := .message "No such instance" })
  | some inst =>
    let r := deregisterInstance c (.doc inst)
    (r.1, { status := 200, body := .success r.2 })

/-! ## Sequences of operations -/

/-- The operations that change the registry. -/
inductive Op where
  /-- A registration request at time `now`. -/
  | register (now : Nat) (req : RegisterRequest)
  /-- A heartbeat request at time `now`. -/
  | heartbeat (now : Nat) (id : JsNumber)
  /-- A delete request. -/
  | delete (id : JsNumber)
  /-- A call of `deregisterInstanceById`. -/
  | deregisterById (id : Nat)
  deriving DecidableEq, Repr

/-- One operation: the collection after it and what it answers. -/
def step (c : Collection) : Op → Collection × Response
  | .register now req => createService c now req
  | .heartbeat now id => serviceHeartbeat c now id
  | .delete id => deleteService c id
  | .deregisterById id =>
    let r := deregisterInstanceById c id
    (r.1, { status := 200, body := .success r.2 })

/-- A sequence of operations: the collection after it and the answers in
order. -/
def run (c : Collection) : List Op → Collection × List Response
  | [] => (c, [])
  | op :: ops =>
    let r := step c op
    let rest := run r.1 ops
    (rest.1, r.2 :: rest.2)

/-- The id an answer hands out: the `id` of a created instance. -/
def createdId (r : Response) : Option Nat :=
  match r.body with
  | .created i => some i.id
  | _ => none

/-- The ids handed out by the registrations among the answers, in order. -/
def registeredIds (rs : List Response) : List Nat :=
  rs.filterMap createdId

/-- A collection the registry can be in: the result of some sequence of
operations on the empty collection. -/
def Reachable (c : Collection) : Prop :=
  ∃ ops : List Op, (run Collection.empty ops).1 = c

/-- The ids are strictly increasing in insertion order and none exceeds the
counter. -/
def Collection.WF (c : Collection) : Prop :=
  (c.data.map Doc.loki).Pairwise (· < ·) ∧ ∀ d ∈ c.data, d.loki ≤ c.maxId

/-! ## Notions used in the statements -/

instance instDecidableEqExcept {ε α : Type} [DecidableEq ε] [DecidableEq α] :
    DecidableEq (Except ε α) := fun a b =>
  match a, b with
  | .ok x, .ok y =>
    if h : x = y then isTrue (by rw [h]) else isFalse (fun e => h (by cases e; rfl))
  | .error x, .error y =>
    if h : x = y then isTrue (by rw [h]) else isFalse (fun e => h (by cases e; rfl))
  | .ok _, .error _ => isFalse (fun e => by cases e)
  | .error _, .ok _ => isFalse (fun e => by cases e)

/-- The text of a name before its first `@`. -/
def beforeAt (name : String) : String :=
  String.mk (name.data.takeWhile (fun c => decide (c ≠ '@')))

/-- The text of a name after its first `@`. -/
def afterAt (name : String) : String :=
  String.mk (name.data.dropWhile (fun c => decide (c ≠ '@'))).tail

/-- The text of a name between its first `@` and the next one (or the end). -/
def betweenAt (name : String) : String :=
  String.mk ((name.data.dropWhile (fun c => decide (c ≠ '@'))).tail.takeWhile
    (fun c => decide (c ≠ '@')))

/-- A request field that is missing or empty: absent, `null` or the empty
string. -/
def MissingOrEmpty (v : JsValue) : Prop :=
  v = .undefined ∨ v = .null ∨ v = .string ""

instance instDecidableMissingOrEmpty (v : JsValue) : Decidable (MissingOrEmpty v) := by
  unfold MissingOrEmpty
  infer_instance

/-- A request field the guard of `POST /services` refuses: missing or empty,
the number `0` or the value `false`. -/
def Refused (v : JsValue) : Prop :=
  MissingOrEmpty v ∨ v = .number 0 ∨ v = .bool false

instance instDecidableRefused (v : JsValue) : Decidable (Refused v) := by
  unfold Refused
  infer_instance

/-- The host of a request once a refused host has been replaced by the remote
address of the connection. -/
def hostAfterFilling (req : RegisterRequest) : JsValue :=
  if Refused req.host then req.ip else req.host

/-- The entry `GET /services/:name` sends for a stored document. -/
def Doc.toEntry (d : Doc) : Entry :=
  { name := d.name, host := d.host, port := d.port, version := d.version }

/-- The filter as worded: the name is the given one and, when a version is
given, the version is the given one. -/
def matchesFilter (name : String) (version : Option String) (d : Doc) : Bool :=
  decide (d.name = .string name) &&
    match version with
    | some v => decide (d.version = some v)
    | none => true

/-- The filter the route applies: the name is the given one and, when a
non-empty version is given, the version is the given one. -/
def matchesNonEmptyFilter (name : String) (version : Option String) (d : Doc) : Bool :=
  decide (d.name = .string name) &&
    match version with
    | some v => if v = "" then true else decide (d.version = some v)
    | none => true

/-- The store of the tests after the two registrations `web@1.2.3` and
`web@0.1.1`. -/
def sampleStore : Collection :=
  (run Collection.empty
    [.register 10 ⟨.string "web@1.2.3", .undefined, .number 18803, .undefined,
        .string "127.0.0.1"⟩,
     .register 11 ⟨.string "web@0.1.1", .string "127.0.0.1", .number 18803, .undefined,
        .string "127.0.0.1"⟩]).1

/-- The first document of `sampleStore`. -/
def sampleDoc : Doc :=
  { name := .string "web", host := .string "127.0.0.1", port := .number 18803,
    version := some "1.2.3", _heartbeat := 10, meta := freshMeta 10 [], loki := 1 }

/-- The documents after the first one with the id `n` got the heartbeat `now`
and the stamps of an update. -/
def touch (n now : Nat) : List Doc → List Doc
  | [] => []
  | d :: ds =>
    if d.loki = n then { d with _heartbeat := now, meta := d.meta.touched now } :: ds
    else d :: touch n now ds

/-! ## Splitting a name -/

theorem splitChars_ne_nil (sep : Char) (l : List Char) : splitChars sep l ≠ [] := by
  cases l with
  | nil => simp [splitChars]
  | cons c cs =>
    simp only [splitChars]
    split
    · simp
    · split <;> simp

/-- The first piece of a split is the text before the first separator. -/
theorem splitChars_head (sep : Char) (l : List Char) :
    (splitChars sep l)[0]? = some (l.takeWhile (fun c => decide (c ≠ sep))) := by
  induction l with
  | nil => simp [splitChars]
  | cons c cs ih =>
    simp only [splitChars]
    by_cases h : c = sep
    · simp [h]
    · simp only [h, if_false]
      cases hs : splitChars sep cs with
      | nil => exact absurd hs (splitChars_ne_nil sep cs)
      | cons p ps =>
        rw [hs] at ih
        simp at ih
        simp [List.takeWhile, h, ih]

/-- With a separator the second piece of a split is the text between the first
separator and the next one (or the end). -/
theorem splitChars_second (sep : Char) (l : List Char) (h : sep ∈ l) :
    (splitChars sep l)[1]?
      = some (((l.dropWhile (fun c => decide (c ≠ sep))).tail).takeWhile
          (fun c => decide (c ≠ sep))) := by
  induction l with
  | nil => simp at h
  | cons c cs ih =>
    simp only [splitChars]
    by_cases hc : c = sep
    · subst hc
      have := splitChars_head c cs
      simp [List.dropWhile] at this ⊢
      simpa using this
    · have hmem : sep ∈ cs := by
        rcases List.mem_cons.1 h with e | e
        · exact absurd e.symm hc
        · exact e
      simp only [hc, if_false]
      cases hs : splitChars sep cs with
      | nil => exact absurd hs (splitChars_ne_nil sep cs)
      | cons p ps =>
        have := ih hmem
        rw [hs] at this
        simp [List.dropWhile, hc] at this ⊢
        simpa using this

/-- The block `if (name.indexOf('@') >= 0)` on a string with an `@`. -/
theorem nameAndVersion_of_at (name : String) (h : '@' ∈ name.data) :
    nameAndVersion (.string name) = .ok (some (beforeAt name), some (betweenAt name)) := by
  have hi : (0 : Int) ≤ (name.data.indexOf '@' : Int) := Int.ofNat_nonneg _
  have h0 := splitChars_head '@' name.data
  have h1 := splitChars_second '@' name.data h
  simp only [nameAndVersion, indexOf, h, if_true, ge_iff_le, hi, split, beforeAt, betweenAt,
    List.getElem?_map, h0, h1, Option.map_some']

/-- The block `if (name.indexOf('@') >= 0)` on a string without `@`. -/
theorem nameAndVersion_of_no_at (name : String) (h : '@' ∉ name.data) :
    nameAndVersion (.string name) = .ok (none, none) := by
  simp [nameAndVersion, indexOf, h]

/-! ## Registration -/

theorem string_mk_eq_empty (l : List Char) : String.mk l = "" ↔ l = [] := by
  constructor
  · intro h
    have := congrArg String.data h
    simpa using this
  · rintro rfl
    rfl

/-- What `registerInstance` does with a name that has an `@`: the stored name
is the text before the first `@` unless that text is empty, in which case it is
the supplied name; the version is the text between the first `@` and the next
one. -/
theorem registerInstance_of_at (c : Collection) (now : Nat) (name : String)
    (host port meta : JsValue) (attrs : List (String × String))
    (h : '@' ∈ name.data) (hm : ownAttrs meta = some attrs) :
    registerInstance c now (.string name) host port meta
      = ({ data := c.data ++
            [{ name := if beforeAt name = "" then .string name else .string (beforeAt name),
               host := host, port := port, version := some (betweenAt name),
               _heartbeat := now, meta := freshMeta now attrs, loki := c.maxId + 1 }],
           maxId := c.maxId + 1 },
         .ok { name := if beforeAt name = "" then .string name else .string (beforeAt name),
               host := host, port := port, version := some (betweenAt name),
               id := c.maxId + 1, meta := freshMeta now attrs, _heartbeat := now }) := by
  simp only [registerInstance, nameAndVersion_of_at name h, Collection.insert, hm, jsOr]

/-- What `registerInstance` does with a name that has no `@`. -/
theorem registerInstance_of_no_at (c : Collection) (now : Nat) (name : String)
    (host port meta : JsValue) (attrs : List (String × String))
    (h : '@' ∉ name.data) (hm : ownAttrs meta = some attrs) :
    registerInstance c now (.string name) host port meta
      = ({ data := c.data ++
            [{ name := .string name, host := host, port := port, version := none,
               _heartbeat := now, meta := freshMeta now attrs, loki := c.maxId + 1 }],
           maxId := c.maxId + 1 },
         .ok { name := .string name, host := host, port := port, version := none,
               id := c.maxId + 1, meta := freshMeta now attrs, _heartbeat := now }) := by
  simp only [registerInstance, nameAndVersion_of_no_at name h, Collection.insert, hm, jsOr]

/-- With exactly one `@` and some text before it, the stored and returned name
is the text before the `@` and the version is all the text after it. -/
theorem registerInstance_single_at (c : Collection) (now : Nat) (name : String)
    (host port meta : JsValue) (attrs : List (String × String))
    (h : '@' ∈ name.data) (hm : ownAttrs meta = some attrs) (hb : beforeAt name ≠ "")
    (ha : '@' ∉ (afterAt name).data) :
    ∃ inst, (registerInstance c now (.string name) host port meta).2 = .ok inst ∧
      inst.name = .string (beforeAt name) ∧ inst.version = some (afterAt name) := by
  rw [registerInstance_of_at c now name host port meta attrs h hm]
  have hba : betweenAt name = afterAt name := by
    unfold betweenAt afterAt
    congr 1
    rw [List.takeWhile_eq_self_iff]
    intro x hx
    have : x ≠ '@' := fun e => ha (by simpa [afterAt, e] using hx)
    simpa using this
  exact ⟨_, rfl, by simp [hb], by simp [hba]⟩

/-- The stored name has no `@` whenever the supplied name does not begin with
one. -/
theorem registerInstance_name_of_not_leading (c : Collection) (now : Nat)
    (name : String) (host port meta : JsValue) (attrs : List (String × String))
    (hm : ownAttrs meta = some attrs)
    (hb : '@' ∈ name.data → beforeAt name ≠ "") :
    ∃ inst stored, (registerInstance c now (.string name) host port meta).2 = .ok inst ∧
      inst.name = .string stored ∧ '@' ∉ stored.data := by
  by_cases h : '@' ∈ name.data
  · rw [registerInstance_of_at c now name host port meta attrs h hm]
    refine ⟨_, beforeAt name, rfl, by simp [hb h], ?_⟩
    intro hmem
    have := List.mem_takeWhile_imp (show '@' ∈ List.takeWhile _ name.data from hmem)
    simp at this
  · rw [registerInstance_of_no_at c now name host port meta attrs h hm]
    exact ⟨_, name, rfl, rfl, h⟩

/-- C1 (the code at the failing input): for the name `a@b@c`
`registerInstance` stores and returns the name `a` and the version `b`, while
the text after the first `@` is `b@c`; the text after the second `@` is
dropped. -/
theorem registerInstance_two_ats :
    (registerInstance Collection.empty 0 (.string "a@b@c") (.string "10.0.0.1")
        (.number 80) .undefined).2
      = .ok { name := .string "a", host := .string "10.0.0.1", port := .number 80,
              version := some "b", id := 1, meta := freshMeta 0 [], _heartbeat := 0 } ∧
    ((registerInstance Collection.empty 0 (.string "a@b@c") (.string "10.0.0.1")
        (.number 80) .undefined).1.data.map
      fun d => (d.name, d.version)) = [(.string "a", some "b")] ∧
    afterAt "a@b@c" = "b@c" := by
  decide

/-- C9 (the code at the failing input): for the name `@1.0`, which begins with
the separator, `registerInstance` stores and returns the supplied name itself,
`@` included. -/
theorem registerInstance_leading_at :
    (registerInstance Collection.empty 0 (.string "@1.0") (.string "10.0.0.1")
        (.number 80) .undefined).2
      = .ok { name := .string "@1.0", host := .string "10.0.0.1", port := .number 80,
              version := some "1.0", id := 1, meta := freshMeta 0 [], _heartbeat := 0 } ∧
    ((registerInstance Collection.empty 0 (.string "@1.0") (.string "10.0.0.1")
        (.number 80) .undefined).1.data.map Doc.name) = [.string "@1.0"] ∧
    '@' ∈ "@1.0".data := by
  decide

/-- C10: for a name without `@`, `registerInstance` stores and returns the name
unchanged and the version `null` (for a `meta` that is absent, an object or an
array; host and port are any values). -/
theorem registerInstance_without_at (c : Collection) (now : Nat) (name : String)
    (host port meta : JsValue) (attrs : List (String × String))
    (h : '@' ∉ name.data) (hm : ownAttrs meta = some attrs) :
    (∃ inst, (registerInstance c now (.string name) host port meta).2 = .ok inst ∧
      inst.name = .string name ∧ inst.version = none) ∧
    (registerInstance c now (.string name) host port meta).1.data
      = c.data ++ [{ name := .string name, host := host, port := port, version := none,
                     _heartbeat := now, meta := freshMeta now attrs,
                     loki := c.maxId + 1 }] := by
  rw [registerInstance_of_no_at c now name host port meta attrs h hm]
  exact ⟨⟨_, rfl, rfl, rfl⟩, rfl⟩

theorem registerInstance_without_at_witness :
    ('@' ∉ "web".data ∧ ownAttrs .undefined = some []) ∧
    (∃ inst, (registerInstance Collection.empty 7 (.string "web") (.string "127.0.0.1")
        (.number 18803) .undefined).2 = .ok inst ∧
      inst.name = .string "web" ∧ inst.version = none) ∧
    (registerInstance Collection.empty 7 (.string "web") (.string "127.0.0.1")
        (.number 18803) .undefined).1.data
      = Collection.empty.data ++
          [{ name := .string "web", host := .string "127.0.0.1", port := .number 18803,
             version := none, _heartbeat := 7, meta := freshMeta 7 [],
             loki := Collection.empty.maxId + 1 }] :=
  ⟨⟨by decide, rfl⟩,
    registerInstance_without_at Collection.empty 7 "web" (.string "127.0.0.1")
      (.number 18803) .undefined [] (by decide) rfl⟩

/-! ## The collection: positions, update, removal -/

/-- Splicing out the first entry found by `findIdx?` is `eraseP`. -/
theorem eraseIdx_findIdx {α : Type} (p : α → Bool) (l : List α) :
    (match l.findIdx? p with
      | some i => l.eraseIdx i
      | none => l) = l.eraseP p := by
  induction l with
  | nil => simp
  | cons a as ih =>
    by_cases h : p a = true
    · simp [List.findIdx?_cons, h]
    · simp only [List.findIdx?_cons, h, Bool.false_eq_true, if_false, Nat.zero_add,
        List.findIdx?_succ]
      have h' : p a = false := by simpa using h
      rw [List.eraseP_cons_of_neg (by simp [h'])]
      rw [← ih]
      cases List.findIdx? p as <;> simp

theorem removeDoc_data (c : Collection) (d : Doc) :
    (c.removeDoc d).data = c.data.eraseP (fun e => decide (e.loki = d.loki)) := by
  rw [← eraseIdx_findIdx]
  unfold Collection.removeDoc Collection.position
  cases List.findIdx? (fun e => decide (e.loki = d.loki)) c.data <;> rfl

theorem removeDoc_maxId (c : Collection) (d : Doc) : (c.removeDoc d).maxId = c.maxId := by
  unfold Collection.removeDoc
  split <;> rfl

theorem foldl_removeDoc_maxId (ds : List Doc) (c : Collection) :
    (ds.foldl Collection.removeDoc c).maxId = c.maxId := by
  induction ds generalizing c with
  | nil => rfl
  | cons d ds ih => simp [List.foldl_cons, ih, removeDoc_maxId]

theorem foldl_removeDoc_sublist (ds : List Doc) (c : Collection) :
    (ds.foldl Collection.removeDoc c).data.Sublist c.data := by
  induction ds generalizing c with
  | nil => exact List.Sublist.refl _
  | cons d ds ih =>
    simp only [List.foldl_cons]
    refine (ih (c.removeDoc d)).trans ?_
    rw [removeDoc_data]
    exact List.eraseP_sublist _

/-- An update leaves the ids at every position and the counter as they are. -/
theorem update_ids (c : Collection) (now : Nat) (doc : Doc) (r : Collection × Doc)
    (h : c.update now doc = .ok r) :
    r.1.data.map Doc.loki = c.data.map Doc.loki ∧ r.1.maxId = c.maxId := by
  unfold Collection.update Collection.position at h
  cases hf : List.findIdx? (fun d => decide (d.loki = doc.loki)) c.data with
  | none => simp [hf] at h
  | some i =>
    simp only [hf, Except.ok.injEq] at h
    subst h
    obtain ⟨hi, hp, _⟩ := List.findIdx?_eq_some_iff_getElem.1 hf
    have hp' : c.data[i].loki = doc.loki := by simpa using hp
    refine ⟨?_, rfl⟩
    simp only [List.map_set]
    rw [← hp']
    apply List.ext_getElem
    · simp
    · intro j h1 h2
      simp only [List.getElem_set, List.getElem_map]
      split
      · next e => subst e; rfl
      · rfl

/-! ## The invariant of the collection -/

theorem WF_empty : Collection.empty.WF := by
  simp [Collection.WF, Collection.empty]

theorem WF_append (c : Collection) (doc : Doc) (h : c.WF) (hl : doc.loki = c.maxId + 1) :
    Collection.WF { data := c.data ++ [doc], maxId := c.maxId + 1 } := by
  obtain ⟨hp, hb⟩ := h
  refine ⟨?_, ?_⟩
  · simp only [List.map_append, List.map_cons, List.map_nil]
    rw [List.pairwise_append]
    refine ⟨hp, List.pairwise_singleton _ _, ?_⟩
    intro a ha b hb'
    simp only [List.mem_singleton] at hb'
    obtain ⟨d, hd, rfl⟩ := List.mem_map.1 ha
    have := hb d hd
    omega
  · intro d hd
    simp only [List.mem_append, List.mem_singleton] at hd ⊢
    rcases hd with hd | rfl
    · have := hb d hd
      omega
    · omega

theorem WF_of_sublist (c c' : Collection) (h : c.WF) (hs : c'.data.Sublist c.data)
    (hm : c.maxId ≤ c'.maxId) : c'.WF := by
  obtain ⟨hp, hb⟩ := h
  refine ⟨hp.sublist (hs.map _), ?_⟩
  intro d hd
  exact Nat.le_trans (hb d (hs.subset hd)) hm

theorem WF_update (c : Collection) (now : Nat) (doc : Doc) (r : Collection × Doc)
    (hu : c.update now doc = .ok r) (h : c.WF) : r.1.WF := by
  obtain ⟨hids, hmax⟩ := update_ids c now doc r hu
  obtain ⟨hp, hb⟩ := h
  refine ⟨by rw [hids]; exact hp, ?_⟩
  intro d hd
  have hmem : d.loki ∈ r.1.data.map Doc.loki := List.mem_map_of_mem _ hd
  rw [hids] at hmem
  obtain ⟨e, he, hel⟩ := List.mem_map.1 hmem
  rw [hmax, ← hel]
  exact hb e he

theorem WF_removeDoc (c : Collection) (d : Doc) (h : c.WF) : (c.removeDoc d).WF :=
  WF_of_sublist c _ h (by rw [removeDoc_data]; exact List.eraseP_sublist _)
    (Nat.le_of_eq (removeDoc_maxId c d).symm)

/-! ## Every operation keeps the invariant -/

/-- The two ways `registerInstance` ends: it throws, with nothing stored, or it
appends one document with the next id and returns its fields. -/
theorem registerInstance_cases (c : Collection) (now : Nat) (name host port meta : JsValue) :
    (∃ e, (registerInstance c now name host port meta).2 = .error e ∧
      (registerInstance c now name host port meta).1.data = c.data ∧
      c.maxId ≤ (registerInstance c now name host port meta).1.maxId) ∨
    (∃ inst doc, registerInstance c now name host port meta
        = ({ data := c.data ++ [doc], maxId := c.maxId + 1 }, .ok inst) ∧
      doc.loki = c.maxId + 1 ∧ inst.id = c.maxId + 1 ∧ inst.name = doc.name ∧
      inst.host = doc.host ∧ inst.port = doc.port ∧ doc.host = host ∧ doc.port = port) := by
  unfold registerInstance
  cases nameAndVersion name with
  | error e => exact Or.inl ⟨e, rfl, rfl, Nat.le_refl _⟩
  | ok nv =>
    cases hm : ownAttrs meta with
    | none =>
      refine Or.inl ⟨"TypeError", ?_, ?_, ?_⟩ <;> simp [Collection.insert, hm]
    | some attrs =>
      refine Or.inr
        ⟨{ name := jsOr nv.1 name, host := host, port := port, version := nv.2,
           id := c.maxId + 1, meta := freshMeta now attrs, _heartbeat := now },
         { name := jsOr nv.1 name, host := host, port := port, version := nv.2,
           _heartbeat := now, meta := freshMeta now attrs, loki := c.maxId + 1 },
         ?_, rfl, rfl, rfl, rfl, rfl, rfl, rfl⟩
      simp only [Collection.insert, hm]

/-- What one operation does to the invariant, the counter and the ids. -/
theorem step_spec (c : Collection) (op : Op) (h : c.WF) :
    (step c op).1.WF ∧
    ((createdId (step c op).2 = none ∧ c.maxId ≤ (step c op).1.maxId ∧
        ((step c op).1.data.map Doc.loki).Sublist (c.data.map Doc.loki)) ∨
     (createdId (step c op).2 = some (c.maxId + 1) ∧
        (step c op).1.maxId = c.maxId + 1 ∧
        (step c op).1.data.map Doc.loki = c.data.map Doc.loki ++ [c.maxId + 1])) := by
  cases op with
  | register now req =>
    simp only [step, createService]
    split
    · exact ⟨h, Or.inl ⟨rfl, Nat.le_refl _, List.Sublist.refl _⟩⟩
    · rcases registerInstance_cases c now req.name (filledHost req) req.port req.meta with
        ⟨e, he, hd, hm⟩ | ⟨inst, doc, hr, hl, hid, _⟩
      · rw [he]
        refine ⟨WF_of_sublist c _ h (by rw [hd]) hm, Or.inl ⟨rfl, hm, by rw [hd]⟩⟩
      · rw [hr]
        refine ⟨WF_append c doc h hl, Or.inr ⟨?_, rfl, ?_⟩⟩
        · simp [createdId, hid]
        · simp [hl]
  | heartbeat now id =>
    simp only [step, serviceHeartbeat]
    split
    · exact ⟨h, Or.inl ⟨rfl, Nat.le_refl _, List.Sublist.refl _⟩⟩
    · split
      · next r hu =>
        obtain ⟨hids, hmax⟩ := update_ids c now _ r hu
        exact ⟨WF_update c now _ r hu h,
          Or.inl ⟨rfl, Nat.le_of_eq hmax.symm, by rw [hids]⟩⟩
      · exact ⟨h, Or.inl ⟨rfl, Nat.le_refl _, List.Sublist.refl _⟩⟩
  | delete id =>
    simp only [step, deleteService]
    split
    · exact ⟨h, Or.inl ⟨rfl, Nat.le_refl _, List.Sublist.refl _⟩⟩
    · next inst _ =>
      simp only [deregisterInstance, Collection.remove]
      refine ⟨WF_removeDoc c inst h,
        Or.inl ⟨rfl, Nat.le_of_eq (removeDoc_maxId c inst).symm, ?_⟩⟩
      rw [removeDoc_data]
      exact (List.eraseP_sublist _).map _
  | deregisterById id =>
    simp only [step, deregisterInstanceById, deregisterInstance, Collection.remove]
    exact ⟨WF_of_sublist c _ h (foldl_removeDoc_sublist _ c)
        (Nat.le_of_eq (foldl_removeDoc_maxId _ c).symm),
      Or.inl ⟨rfl, Nat.le_of_eq (foldl_removeDoc_maxId _ c).symm,
        (foldl_removeDoc_sublist _ c).map _⟩⟩

/-- What a sequence of operations does, from any collection that satisfies the
invariant. -/
theorem run_spec (ops : List Op) (c : Collection) (h : c.WF) :
    (run c ops).1.WF ∧ c.maxId ≤ (run c ops).1.maxId ∧
    (registeredIds (run c ops).2).Pairwise (· < ·) ∧
    (∀ i ∈ registeredIds (run c ops).2, c.maxId < i) ∧
    ((run c ops).1.data.map Doc.loki).Sublist
      (c.data.map Doc.loki ++ registeredIds (run c ops).2) := by
  induction ops generalizing c with
  | nil => simp [run, registeredIds, h]
  | cons op ops ih =>
    obtain ⟨hwf, hstep⟩ := step_spec c op h
    obtain ⟨h1, h2, h3, h4, h5⟩ := ih (step c op).1 hwf
    simp only [run]
    rcases hstep with ⟨hc, hm, hs⟩ | ⟨hc, hm, hs⟩
    · have hreg : registeredIds ((step c op).2 :: (run (step c op).1 ops).2)
          = registeredIds (run (step c op).1 ops).2 := by
        simp [registeredIds, List.filterMap_cons, hc]
      rw [hreg]
      refine ⟨h1, Nat.le_trans hm h2, h3, ?_,
        h5.trans (List.Sublist.append hs (List.Sublist.refl _))⟩
      intro i hi
      exact Nat.lt_of_le_of_lt hm (h4 i hi)
    · have hreg : registeredIds ((step c op).2 :: (run (step c op).1 ops).2)
          = (c.maxId + 1) :: registeredIds (run (step c op).1 ops).2 := by
        simp [registeredIds, List.filterMap_cons, hc]
      rw [hreg]
      rw [hm] at h2 h4
      refine ⟨h1, by omega, ?_, ?_, ?_⟩
      · rw [List.pairwise_cons]
        exact ⟨fun i hi => h4 i hi, h3⟩
      · intro i hi
        rcases List.mem_cons.1 hi with rfl | hi
        · omega
        · have := h4 i hi
          omega
      · rw [hs] at h5
        simpa using h5

/-- Every collection the registry can be in satisfies the invariant. -/
theorem reachable_wf {c : Collection} (h : Reachable c) : c.WF := by
  obtain ⟨ops, rfl⟩ := h
  exact (run_spec ops Collection.empty WF_empty).1

/-- C8: after any sequence of register, heartbeat and delete operations on the
empty store, no two stored instances have the same id, the ids returned by the
registrations are strictly increasing in the order of the registrations, and
the stored ids are among them, in that order. -/
theorem ids_unique_and_increasing (ops : List Op) :
    ((run Collection.empty ops).1.data.map Doc.loki).Nodup ∧
    (registeredIds (run Collection.empty ops).2).Pairwise (· < ·) ∧
    ((run Collection.empty ops).1.data.map Doc.loki).Sublist
      (registeredIds (run Collection.empty ops).2) := by
  obtain ⟨h1, _, h3, _, h5⟩ := run_spec ops Collection.empty WF_empty
  refine ⟨?_, h3, by simpa [Collection.empty] using h5⟩
  exact (h1.1.imp (fun hab => Nat.ne_of_lt hab))

/-! ## Lookup by id -/

theorem getInstanceById_eq_find (c : Collection) (id : JsNumber) :
    getInstanceById c id = c.data.find? (fun d => decide (id = some d.loki)) := by
  simp [getInstanceById, Collection.findOne, Collection.find]
  rfl

/-- A found document is stored and has the id asked for. -/
theorem getInstanceById_some {c : Collection} {id : JsNumber} {d : Doc}
    (h : getInstanceById c id = some d) : d ∈ c.data ∧ id = some d.loki := by
  rw [getInstanceById_eq_find] at h
  exact ⟨List.mem_of_find?_eq_some h, by simpa using List.find?_some h⟩

/-- The lookup answers `null` exactly when no stored document has the id. -/
theorem getInstanceById_eq_none_iff (c : Collection) (id : JsNumber) :
    getInstanceById c id = none ↔ ∀ d ∈ c.data, id ≠ some d.loki := by
  rw [getInstanceById_eq_find, List.find?_eq_none]
  simp

/-- C2: in every store the registry can be in, `registerInstance` with a name
(a string), any host and port and a `meta` that is absent, an object or an
array returns an instance, and the lookup `getInstanceById` with the returned
id finds a document; its name, host and port are those of the instance
returned, and its host and port are the supplied ones. -/
theorem register_then_getInstanceById (c : Collection) (h : Reachable c) (now : Nat)
    (name : String) (host port meta : JsValue) (attrs : List (String × String))
    (hm : ownAttrs meta = some attrs) :
    ∃ (inst : Instance) (d : Doc),
      (registerInstance c now (.string name) host port meta).2 = .ok inst ∧
      getInstanceById (registerInstance c now (.string name) host port meta).1
          (some inst.id) = some d ∧
      d.loki = inst.id ∧ d.name = inst.name ∧ d.host = inst.host ∧ d.port = inst.port ∧
      d.host = host ∧ d.port = port := by
  have hb := (reachable_wf h).2
  have hnone : c.data.find? (fun d => decide (some (c.maxId + 1) = some d.loki)) = none := by
    rw [List.find?_eq_none]
    intro d hd
    have := hb d hd
    simp
    omega
  rcases registerInstance_cases c now (.string name) host port meta with
    ⟨e, he, _, _⟩ | ⟨inst, doc, hr, hl, hid, hn, hh, hp, hh', hp'⟩
  · exfalso
    by_cases hat : '@' ∈ name.data
    · rw [registerInstance_of_at c now name host port meta attrs hat hm] at he
      cases he
    · rw [registerInstance_of_no_at c now name host port meta attrs hat hm] at he
      cases he
  · refine ⟨inst, doc, by rw [hr], ?_, by rw [hl, hid], hn.symm, hh.symm, hp.symm, hh', hp'⟩
    rw [hr, getInstanceById_eq_find, hid]
    simp only [List.find?_append, hnone]
    simp [hl]

theorem register_then_getInstanceById_witness :
    (Reachable (deleteService sampleStore (some 1)).1 ∧
      ownAttrs (.object [("zone", "\"eu\"")]) = some [("zone", "\"eu\"")]) ∧
    ∃ (inst : Instance) (d : Doc),
      (registerInstance (deleteService sampleStore (some 1)).1 12 (.string "web@1.2.3")
        (.string "127.0.0.1") (.number 18803) (.object [("zone", "\"eu\"")])).2 = .ok inst ∧
      getInstanceById
        (registerInstance (deleteService sampleStore (some 1)).1 12 (.string "web@1.2.3")
          (.string "127.0.0.1") (.number 18803) (.object [("zone", "\"eu\"")])).1
          (some inst.id) = some d ∧
      d.loki = inst.id ∧ d.name = inst.name ∧ d.host = inst.host ∧ d.port = inst.port ∧
      d.host = .string "127.0.0.1" ∧ d.port = .number 18803 :=
  ⟨⟨⟨[.register 10 ⟨.string "web@1.2.3", .undefined, .number 18803, .undefined,
          .string "127.0.0.1"⟩,
       .register 11 ⟨.string "web@0.1.1", .string "127.0.0.1", .number 18803, .undefined,
          .string "127.0.0.1"⟩,
       .delete (some 1)], by decide⟩, rfl⟩,
    register_then_getInstanceById _
      ⟨[.register 10 ⟨.string "web@1.2.3", .undefined, .number 18803, .undefined,
          .string "127.0.0.1"⟩,
       .register 11 ⟨.string "web@0.1.1", .string "127.0.0.1", .number 18803, .undefined,
          .string "127.0.0.1"⟩,
       .delete (some 1)], by decide⟩
      12 "web@1.2.3" (.string "127.0.0.1") (.number 18803) (.object [("zone", "\"eu\"")])
      [("zone", "\"eu\"")] rfl⟩

/-! ## The registration entry point -/

/-- The falsy request values are the refused ones. -/
theorem truthy_eq_false_iff (v : JsValue) : v.truthy = false ↔ Refused v := by
  cases v with
  | undefined => simp [JsValue.truthy, Refused, MissingOrEmpty]
  | null => simp [JsValue.truthy, Refused, MissingOrEmpty]
  | bool b => cases b <;> simp [JsValue.truthy, Refused, MissingOrEmpty]
  | number n => simp [JsValue.truthy, Refused, MissingOrEmpty]
  | string s => simp [JsValue.truthy, Refused, MissingOrEmpty]
  | array items => simp [JsValue.truthy, Refused, MissingOrEmpty]
  | object attrs => simp [JsValue.truthy, Refused, MissingOrEmpty]

theorem filledHost_eq (req : RegisterRequest) : filledHost req = hostAfterFilling req := by
  unfold filledHost hostAfterFilling
  by_cases h : Refused req.host
  · simp [h, (truthy_eq_false_iff req.host).2 h]
  · have ht : req.host.truthy = true := by
      cases hv : req.host.truthy with
      | false => exact absurd ((truthy_eq_false_iff req.host).1 hv) h
      | true => rfl
    simp [h, ht]

/-- With a string as name and a `meta` that can carry the stamps,
`registerInstance` appends one document with the next id and returns its
fields. -/
theorem registerInstance_ok (c : Collection) (now : Nat) (name : String)
    (host port meta : JsValue) (attrs : List (String × String))
    (hm : ownAttrs meta = some attrs) :
    ∃ inst doc, registerInstance c now (.string name) host port meta
        = ({ data := c.data ++ [doc], maxId := c.maxId + 1 }, .ok inst) ∧
      doc.loki = c.maxId + 1 ∧ inst.id = c.maxId + 1 ∧ inst.host = host ∧
      inst.port = port := by
  by_cases hat : '@' ∈ name.data
  · rw [registerInstance_of_at c now name host port meta attrs hat hm]
    exact ⟨_, _, rfl, rfl, rfl, rfl, rfl⟩
  · rw [registerInstance_of_no_at c now name host port meta attrs hat hm]
    exact ⟨_, _, rfl, rfl, rfl, rfl, rfl⟩

/-- C3 (as stated, refuted): a request with name, host and the port `0`, or
the port `false`, is answered with status 400 although none of the three
fields is missing or empty; a request with the three fields and a string as
`meta`, or a number as name, is answered with status 500 and not with 201. -/
theorem createService_port_zero :
    ((createService Collection.empty 0
        ⟨.string "web", .string "127.0.0.1", .number 0, .undefined,
          .string "127.0.0.1"⟩).2.status = 400 ∧
      ¬ (MissingOrEmpty (.string "web") ∨ MissingOrEmpty (.string "127.0.0.1") ∨
          MissingOrEmpty (.number 0))) ∧
    ((createService Collection.empty 0
        ⟨.string "web", .string "127.0.0.1", .bool false, .undefined,
          .string "127.0.0.1"⟩).2.status = 400 ∧
      ¬ (MissingOrEmpty (.string "web") ∨ MissingOrEmpty (.string "127.0.0.1") ∨
          MissingOrEmpty (.bool false))) ∧
    ((createService Collection.empty 0
        ⟨.string "web", .string "127.0.0.1", .number 18803, .string "eu",
          .string "127.0.0.1"⟩).2.status = 500 ∧
      ¬ (MissingOrEmpty (.string "web") ∨ MissingOrEmpty (.string "127.0.0.1") ∨
          MissingOrEmpty (.number 18803))) ∧
    ((createService Collection.empty 0
        ⟨.number 5, .string "127.0.0.1", .number 18803, .undefined,
          .string "127.0.0.1"⟩).2.status = 500 ∧
      ¬ (MissingOrEmpty (.number 5) ∨ MissingOrEmpty (.string "127.0.0.1") ∨
          MissingOrEmpty (.number 18803))) := by
  decide

/-- C3 (amended): once a host that is missing, empty, `0` or `false` has been
replaced by the remote address, `POST /services` answers 400 and leaves the
store as it is exactly when name, host or port is missing or empty or is `0`
or `false`; every other request whose name is a string and whose `meta` is
absent, an object or an array is answered with 201 and the instance
`registerInstance` created and stored under the next id. -/
theorem createService_spec (c : Collection) (now : Nat) (req : RegisterRequest) :
    ((createService c now req).2.status = 400 ↔
      (Refused req.name ∨ Refused (hostAfterFilling req) ∨ Refused req.port)) ∧
    ((Refused req.name ∨ Refused (hostAfterFilling req) ∨ Refused req.port) →
      createService c now req
        = (c, { status := 400, body := .message "Either host, port or name missing." })) ∧
    (¬ (Refused req.name ∨ Refused (hostAfterFilling req) ∨ Refused req.port) →
      ∀ (name : String) (attrs : List (String × String)),
        req.name = .string name → ownAttrs req.meta = some attrs →
        ∃ inst doc,
          createService c now req
            = ({ data := c.data ++ [doc], maxId := c.maxId + 1 },
               { status := 201, body := .created inst }) ∧
          (registerInstance c now req.name (hostAfterFilling req) req.port req.meta).2
            = .ok inst ∧
          doc.loki = c.maxId + 1 ∧ inst.id = c.maxId + 1 ∧
          inst.host = hostAfterFilling req ∧ inst.port = req.port) := by
  rw [← filledHost_eq]
  by_cases hg : Refused req.name ∨ Refused (filledHost req) ∨ Refused req.port
  · have hguard : (!(req.name.truthy && (filledHost req).truthy && req.port.truthy)) = true := by
      rcases hg with h | h | h
      · simp [(truthy_eq_false_iff _).2 h]
      · simp [(truthy_eq_false_iff _).2 h]
      · simp [(truthy_eq_false_iff _).2 h]
    have hres : createService c now req
        = (c, { status := 400, body := .message "Either host, port or name missing." }) := by
      simp only [createService, hguard, if_true]
    exact ⟨⟨fun _ => hg, fun _ => by rw [hres]⟩, fun _ => hres, fun hn => absurd hg hn⟩
  · have hguard : (!(req.name.truthy && (filledHost req).truthy && req.port.truthy)) = false := by
      have h1 : req.name.truthy = true := by
        cases hv : req.name.truthy with
        | false => exact absurd (Or.inl ((truthy_eq_false_iff _).1 hv)) hg
        | true => rfl
      have h2 : (filledHost req).truthy = true := by
        cases hv : (filledHost req).truthy with
        | false => exact absurd (Or.inr (Or.inl ((truthy_eq_false_iff _).1 hv))) hg
        | true => rfl
      have h3 : req.port.truthy = true := by
        cases hv : req.port.truthy with
        | false => exact absurd (Or.inr (Or.inr ((truthy_eq_false_iff _).1 hv))) hg
        | true => rfl
      simp [h1, h2, h3]
    have hne : (createService c now req).2.status ≠ 400 := by
      simp only [createService, hguard, Bool.false_eq_true, if_false]
      split <;> simp
    refine ⟨⟨fun h => absurd h hne, fun h => absurd h hg⟩, fun h => absurd h hg, ?_⟩
    intro _ name attrs hname hm
    obtain ⟨inst, doc, hr, hl, hid, hh, hp⟩ :=
      registerInstance_ok c now name (filledHost req) req.port req.meta attrs hm
    refine ⟨inst, doc, ?_, by rw [hname, hr], hl, hid, hh, hp⟩
    have hguard' := hguard
    rw [hname] at hguard'
    simp only [createService, hname, hguard', Bool.false_eq_true, if_false, hr]

theorem createService_spec_witness :
    ((Refused .undefined ∨
        Refused (hostAfterFilling
          ⟨.undefined, .undefined, .number 18803, .undefined, .string "127.0.0.1"⟩) ∨
        Refused (.number 18803)) ∧
      createService Collection.empty 1
          ⟨.undefined, .undefined, .number 18803, .undefined, .string "127.0.0.1"⟩
        = (Collection.empty,
           { status := 400, body := .message "Either host, port or name missing." })) ∧
    (¬ (Refused (.string "web@1.2.3") ∨
        Refused (hostAfterFilling
          ⟨.string "web@1.2.3", .undefined, .number 18803, .undefined,
            .string "127.0.0.1"⟩) ∨
        Refused (.number 18803)) ∧
      ∃ inst doc,
        createService Collection.empty 1
            ⟨.string "web@1.2.3", .undefined, .number 18803, .undefined,
              .string "127.0.0.1"⟩
          = ({ data := Collection.empty.data ++ [doc], maxId := Collection.empty.maxId + 1 },
             { status := 201, body := .created inst }) ∧
        (registerInstance Collection.empty 1 (.string "web@1.2.3")
            (hostAfterFilling
              ⟨.string "web@1.2.3", .undefined, .number 18803, .undefined,
                .string "127.0.0.1"⟩)
            (.number 18803) .undefined).2 = .ok inst ∧
        doc.loki = Collection.empty.maxId + 1 ∧ inst.id = Collection.empty.maxId + 1 ∧
        inst.host = hostAfterFilling
          ⟨.string "web@1.2.3", .undefined, .number 18803, .undefined,
            .string "127.0.0.1"⟩ ∧
        inst.port = .number 18803) :=
  ⟨⟨by decide,
      (createService_spec Collection.empty 1
        ⟨.undefined, .undefined, .number 18803, .undefined, .string "127.0.0.1"⟩).2.1
        (by decide)⟩,
    ⟨by decide,
      (createService_spec Collection.empty 1
        ⟨.string "web@1.2.3", .undefined, .number 18803, .undefined,
          .string "127.0.0.1"⟩).2.2 (by decide) "web@1.2.3" [] rfl rfl⟩⟩

/-! ## Lookup by name -/

theorem foldl_push_entries (ds : List Doc) (acc : List Entry) :
    ds.foldl
      (fun (final : List Entry) val =>
        final ++ [{ name := val.name, host := val.host, port := val.port,
                    version := val.version }])
      acc = acc ++ ds.map Doc.toEntry := by
  induction ds generalizing acc with
  | nil => simp
  | cons d ds ih => simp [List.foldl_cons, ih, Doc.toEntry]

/-- The answer of `GET /services/:name` in terms of the stored documents. -/
theorem getServicesByName_eq (c : Collection) (name : String) (version : Option String) :
    getServicesByName c name version
      = { status := 200,
          body := .entries
            ((c.data.filter (matchesNonEmptyFilter name version)).map Doc.toEntry) } := by
  unfold getServicesByName
  simp only [foldl_push_entries, List.nil_append]
  congr 3
  cases version with
  | none =>
    simp only [truthyString, Collection.find]
    congr 1
    funext d
    simp [Query.test, matchesNonEmptyFilter]
  | some v =>
    by_cases hv : v = ""
    · simp only [truthyString, hv, if_true, Collection.find]
      congr 1
      funext d
      simp [Query.test, matchesNonEmptyFilter]
    · simp only [truthyString, hv, if_false, Collection.find]
      congr 1
      funext d
      simp [Query.test, matchesNonEmptyFilter, hv]

/-- C4 (as stated, refuted): with `web@1.0` registered, the lookup of `web` with
the empty version `''` answers with the entry of version `1.0`, while no
stored instance has the name `web` and the version `''`. -/
theorem getServicesByName_empty_version :
    (getServicesByName
        (registerInstance Collection.empty 1 (.string "web@1.0") (.string "127.0.0.1")
          (.number 18803) .undefined).1
        "web" (some "")).body
      = .entries [{ name := .string "web", host := .string "127.0.0.1",
                    port := .number 18803, version := some "1.0" }] ∧
    ((registerInstance Collection.empty 1 (.string "web@1.0") (.string "127.0.0.1")
        (.number 18803) .undefined).1.data.filter
        (matchesFilter "web" (some ""))).map Doc.toEntry = [] := by
  decide

/-- C4 (amended): `GET /services/:name` answers with status 200 and one entry,
carrying name, host, port and version, for each stored instance whose name is
the given one and, when a non-empty version is given, whose version is the
given one, and with no other entry; without a version, or with the empty
version, every version of the name is answered; when nothing matches the
answer is the empty array. -/
theorem getServicesByName_spec (c : Collection) (name : String) (version : Option String) :
    (getServicesByName c name version).status = 200 ∧
    (getServicesByName c name version).body
      = .entries ((c.data.filter (matchesNonEmptyFilter name version)).map Doc.toEntry) ∧
    (matchesNonEmptyFilter name version
      = fun d => decide (d.name = .string name ∧
          (version = none ∨ version = some "" ∨ d.version = version))) := by
  rw [getServicesByName_eq]
  refine ⟨rfl, rfl, ?_⟩
  funext d
  cases version with
  | none => simp [matchesNonEmptyFilter]
  | some v =>
    by_cases hv : v = "" <;> simp [matchesNonEmptyFilter, hv]

/-! ## Deletion -/

/-- With strictly increasing ids, splicing out the first document with an id
leaves exactly the documents with another id. -/
theorem eraseP_eq_filter_of_pairwise (n : Nat) (l : List Doc)
    (h : (l.map Doc.loki).Pairwise (· < ·)) :
    l.eraseP (fun e => decide (e.loki = n)) = l.filter (fun e => decide (e.loki ≠ n)) := by
  induction l with
  | nil => rfl
  | cons a as ih =>
    simp only [List.map_cons, List.pairwise_cons] at h
    by_cases ha : a.loki = n
    · have hall : ∀ e ∈ as, decide (e.loki ≠ n) = true := by
        intro e he
        have := h.1 e.loki (List.mem_map_of_mem _ he)
        simp
        omega
      rw [List.eraseP_cons_of_pos (by simpa using ha),
        List.filter_cons_of_neg (by simpa using ha)]
      exact (List.filter_eq_self.2 hall).symm
    · rw [List.eraseP_cons_of_neg (by simpa using ha),
        List.filter_cons_of_pos (by simpa using ha), ih h.2]

/-- The route `DELETE /services/:id` on an id no stored instance has. -/
theorem deleteService_of_absent (c : Collection) (id : JsNumber)
    (h : ∀ d ∈ c.data, id ≠ some d.loki) :
    deleteService c id = (c, { status := 404, body := .message "No such instance" }) := by
  simp [deleteService, (getInstanceById_eq_none_iff c id).2 h]

/-- The route `DELETE /services/:id` on the id of a stored instance: the first
document with that id is spliced out. -/
theorem deleteService_of_stored (c : Collection) (d : Doc) (hd : d ∈ c.data) :
    deleteService c (some d.loki)
      = ({ c with data := c.data.eraseP (fun e => decide (e.loki = d.loki)) },
         { status := 200, body := .success true }) := by
  cases hg : getInstanceById c (some d.loki) with
  | none =>
    exact absurd rfl ((getInstanceById_eq_none_iff c _).1 hg d hd)
  | some inst =>
    have hl : inst.loki = d.loki := by
      have := (getInstanceById_some hg).2
      simpa using this.symm
    have hdata := removeDoc_data c inst
    rw [hl] at hdata
    have hmax := removeDoc_maxId c inst
    simp only [deleteService, hg, deregisterInstance, Collection.remove]
    congr 1
    cases hr : c.removeDoc inst with
    | mk data maxId =>
      rw [hr] at hdata hmax
      simp only at hdata hmax
      rw [hdata, hmax]

/-- The route `DELETE /services/:id` on the id of a stored instance, ids being
unique. -/
theorem deleteService_of_present (c : Collection) (hwf : c.WF) (d : Doc) (hd : d ∈ c.data) :
    deleteService c (some d.loki)
      = ({ c with data := c.data.filter (fun e => decide (e.loki ≠ d.loki)) },
         { status := 200, body := .success true }) := by
  rw [deleteService_of_stored c d hd, eraseP_eq_filter_of_pairwise _ _ hwf.1]

/-- The helper `deregisterInstanceById` answers `true` whatever the id. -/
theorem deregisterInstanceById_true (c : Collection) (id : Nat) :
    (deregisterInstanceById c id).2 = true := rfl

/-- C5: in every store the registry can be in, deleting the id of a stored
  instance answers `{success: true}` and leaves exactly the stored instances
  with another id; afterwards `getInstanceById` on that id answers `null` (a
  second delete answers 404), and the deleted instance is neither in the list
  of all services nor behind any lookup by name. -/
theorem deleteService_removes (c : Collection) (h : Reachable c) (d : Doc)
    (hd : d ∈ c.data) :
    (deleteService c (some d.loki)).2 = { status := 200, body := .success true } ∧
    (deleteService c (some d.loki)).1.data
      = c.data.filter (fun e => decide (e.loki ≠ d.loki)) ∧
    (deleteService c (some d.loki)).1.data = c.data.erase d ∧
    d ∉ (deleteService c (some d.loki)).1.data ∧
    getInstanceById (deleteService c (some d.loki)).1 (some d.loki) = none ∧
    (deleteService (deleteService c (some d.loki)).1 (some d.loki)).2.status = 404 ∧
    getServices (deleteService c (some d.loki)).1
      = { status := 200, body := .docs (c.data.erase d) } ∧
    ∀ (name : String) (version : Option String),
      getServicesByName (deleteService c (some d.loki)).1 name version
        = { status := 200,
            body := .entries
              (((c.data.erase d).filter (matchesNonEmptyFilter name version)).map
                Doc.toEntry) } := by
  have hwf := reachable_wf h
  have hnodup : c.data.Nodup := by
    have : (c.data.map Doc.loki).Nodup := hwf.1.imp (fun hab => Nat.ne_of_lt hab)
    exact List.Nodup.of_map _ this
  have herase : c.data.erase d = c.data.filter (fun e => decide (e.loki ≠ d.loki)) := by
    rw [hnodup.erase_eq_filter]
    apply List.filter_congr
    intro e he
    have hinj : e.loki = d.loki ↔ e = d := by
      constructor
      · intro hl
        exact List.inj_on_of_nodup_map (hwf.1.imp (fun hab => Nat.ne_of_lt hab)) he hd hl
      · rintro rfl
        rfl
    by_cases hed : e = d
    · simp [hed]
    · simp [hed, hinj]
  have hdel := deleteService_of_present c hwf d hd
  have habsent : ∀ e ∈ (deleteService c (some d.loki)).1.data, some d.loki ≠ some e.loki := by
    intro e he
    rw [hdel] at he
    have := (List.mem_filter.1 he).2
    simp at this
    simpa using fun heq => this heq.symm
  have hnone := (getInstanceById_eq_none_iff _ _).2 habsent
  refine ⟨by rw [hdel], by rw [hdel], by rw [hdel, herase], ?_, hnone, ?_, ?_, ?_⟩
  · rw [hdel]
    simp
  · rw [deleteService_of_absent _ _ habsent]
  · rw [hdel, herase]
    simp [getServices, Collection.find, Query.test]
  · intro name version
    rw [getServicesByName_eq, hdel, herase]

theorem deleteService_removes_witness :
    Reachable sampleStore ∧ sampleDoc ∈ sampleStore.data ∧
    (deleteService sampleStore (some sampleDoc.loki)).2
      = { status := 200, body := .success true } ∧
    (deleteService sampleStore (some sampleDoc.loki)).1.data
      = sampleStore.data.filter (fun e => decide (e.loki ≠ sampleDoc.loki)) ∧
    getInstanceById (deleteService sampleStore (some sampleDoc.loki)).1
      (some sampleDoc.loki) = none :=
  ⟨⟨_, rfl⟩, by decide,
    (deleteService_removes sampleStore ⟨_, rfl⟩ sampleDoc (by decide)).1,
    (deleteService_removes sampleStore ⟨_, rfl⟩ sampleDoc (by decide)).2.1,
    (deleteService_removes sampleStore ⟨_, rfl⟩ sampleDoc (by decide)).2.2.2.2.1⟩

/-- C6 (as stated, refuted): `deregisterInstanceById` answers `true` on the
empty store for the id 999, and answers `true` again on a second delete of the
id 1, when no stored instance has that id any more; the route
`DELETE /services/:id` answers an id no stored instance has with 404 and a
message, not with a success value `false`. -/
theorem deregisterInstanceById_absent_id :
    deregisterInstanceById Collection.empty 999 = (Collection.empty, true) ∧
    (deregisterInstanceById sampleStore 1).2 = true ∧
    getInstanceById (deregisterInstanceById sampleStore 1).1 (some 1) = none ∧
    deregisterInstanceById (deregisterInstanceById sampleStore 1).1 1
      = ((deregisterInstanceById sampleStore 1).1, true) ∧
    deleteService Collection.empty (some 999)
      = (Collection.empty, { status := 404, body := .message "No such instance" }) := by
  decide

/-- C6 (amended): the route `DELETE /services/:id` answers 404 with a message
and no success value, and leaves the store as it is, when no stored instance
has the id, in particular on a second delete of the same id; it answers
`{success: true}` when an instance with the id is stored, and that instance is
removed.  The helper `deregisterInstanceById` answers `true` for every id; when
no stored instance has the id it removes nothing. -/
theorem delete_answers (c : Collection) :
    (∀ id : Nat, (deregisterInstanceById c id).2 = true) ∧
    (∀ id : Nat, (∀ d ∈ c.data, d.loki ≠ id) → deregisterInstanceById c id = (c, true)) ∧
    (∀ id : JsNumber, (∀ d ∈ c.data, id ≠ some d.loki) →
      deleteService c id = (c, { status := 404, body := .message "No such instance" })) ∧
    (∀ d ∈ c.data,
      deleteService c (some d.loki)
        = ({ c with data := c.data.eraseP (fun e => decide (e.loki = d.loki)) },
           { status := 200, body := .success true })) ∧
    (Reachable c → ∀ d ∈ c.data,
      d ∉ (deleteService c (some d.loki)).1.data ∧
      deleteService (deleteService c (some d.loki)).1 (some d.loki)
        = ((deleteService c (some d.loki)).1,
           { status := 404, body := .message "No such instance" })) := by
  refine ⟨fun _ => rfl, ?_, fun id h => deleteService_of_absent c id h,
    fun d hd => deleteService_of_stored c d hd, ?_⟩
  · intro id h
    have hfind : c.find (.loki (some id)) = [] := by
      simp only [Collection.find, List.filter_eq_nil_iff, Query.test]
      intro d hd
      have := h d hd
      simpa using fun e => this e.symm
    simp [deregisterInstanceById, deregisterInstance, Collection.remove, hfind]
  · intro hr d hd
    have hdel := deleteService_of_present c (reachable_wf hr) d hd
    have habsent : ∀ e ∈ (deleteService c (some d.loki)).1.data,
        some d.loki ≠ some e.loki := by
      intro e he
      rw [hdel] at he
      have := (List.mem_filter.1 he).2
      simp at this
      simpa using fun heq => this heq.symm
    refine ⟨fun hmem => habsent d hmem rfl, deleteService_of_absent _ _ habsent⟩

theorem delete_answers_witness :
    ((∀ d ∈ sampleStore.data, d.loki ≠ 7) ∧
      deregisterInstanceById sampleStore 7 = (sampleStore, true)) ∧
    ((∀ d ∈ sampleStore.data, some 7 ≠ some d.loki) ∧
      deleteService sampleStore (some 7)
        = (sampleStore, { status := 404, body := .message "No such instance" })) ∧
    (sampleDoc ∈ sampleStore.data ∧
      deleteService sampleStore (some sampleDoc.loki)
        = ({ sampleStore with
              data := sampleStore.data.eraseP (fun e => decide (e.loki = sampleDoc.loki)) },
           { status := 200, body := .success true })) ∧
    (Reachable sampleStore ∧
      sampleDoc ∉ (deleteService sampleStore (some sampleDoc.loki)).1.data ∧
      deleteService (deleteService sampleStore (some sampleDoc.loki)).1 (some sampleDoc.loki)
        = ((deleteService sampleStore (some sampleDoc.loki)).1,
           { status := 404, body := .message "No such instance" })) :=
  ⟨⟨by decide, (delete_answers sampleStore).2.1 7 (by decide)⟩,
    ⟨by decide, (delete_answers sampleStore).2.2.1 (some 7) (by decide)⟩,
    ⟨by decide, (delete_answers sampleStore).2.2.2.1 sampleDoc (by decide)⟩,
    ⟨⟨_, rfl⟩, (delete_answers sampleStore).2.2.2.2 ⟨_, rfl⟩ sampleDoc (by decide)⟩⟩

/-! ## Heartbeat -/

theorem set_findIdx_eq_touch (n now : Nat) (l : List Doc) (inst : Doc)
    (h : l.find? (fun d => decide (some n = some d.loki)) = some inst) :
    (match l.findIdx? (fun d => decide (d.loki = n)) with
      | some i => l.set i { inst with _heartbeat := now, meta := inst.meta.touched now }
      | none => l) = touch n now l := by
  induction l with
  | nil => simp at h
  | cons a as ih =>
    by_cases ha : a.loki = n
    · have : a = inst := by simpa [List.find?_cons, ha] using h
      subst this
      simp [List.findIdx?_cons, ha, touch]
    · have hne : ¬ n = a.loki := fun e => ha e.symm
      have h' : as.find? (fun d => decide (some n = some d.loki)) = some inst := by
        simpa [List.find?_cons, hne] using h
      have := ih h'
      simp only [List.findIdx?_cons, ha, decide_False, Bool.false_eq_true, if_false,
        Nat.zero_add, List.findIdx?_succ, touch]
      rw [← this]
      cases List.findIdx? (fun d => decide (d.loki = n)) as <;> simp

/-- The route `POST /services/:id` on the id of a stored instance. -/
theorem serviceHeartbeat_of_found (c : Collection) (now n : Nat) (inst : Doc)
    (h : getInstanceById c (some n) = some inst) :
    serviceHeartbeat c now (some n)
      = ({ c with data := touch n now c.data },
         { status := 202,
           body := .heartbeat
             { inst with _heartbeat := now, meta := inst.meta.touched now } }) := by
  have hl : inst.loki = n := by
    have := (getInstanceById_some h).2
    simpa using this.symm
  subst hl
  have hf := h
  rw [getInstanceById_eq_find] at hf
  have ht := set_findIdx_eq_touch inst.loki now c.data inst hf
  have hpos : ∃ i, List.findIdx? (fun d => decide (d.loki = inst.loki)) c.data = some i := by
    cases hp : List.findIdx? (fun d => decide (d.loki = inst.loki)) c.data with
    | some i => exact ⟨i, rfl⟩
    | none =>
      rw [List.findIdx?_eq_none_iff] at hp
      have := hp inst (getInstanceById_some h).1
      simp at this
  obtain ⟨i, hi⟩ := hpos
  rw [hi] at ht
  simp only [serviceHeartbeat, h, Collection.update, Collection.position, hi]
  rw [← ht]

/-- The route `POST /services/:id` never answers with status 500: the document
found has a position, so `update` does not throw. -/
theorem serviceHeartbeat_status (c : Collection) (now : Nat) (id : JsNumber) :
    (serviceHeartbeat c now id).2.status = 404 ∨
      (serviceHeartbeat c now id).2.status = 202 := by
  cases hg : getInstanceById c id with
  | none => exact Or.inl (by simp [serviceHeartbeat, hg])
  | some inst =>
    have hid := (getInstanceById_some hg).2
    subst hid
    exact Or.inr (by rw [serviceHeartbeat_of_found c now inst.loki inst hg])

theorem touched_attrs (m : StoredMeta) (now : Nat) :
    (m.touched now).attrs.filter (fun kv => decide (kv.1 ≠ "updated"))
      = m.attrs.filter (fun kv => decide (kv.1 ≠ "updated")) := by
  simp [StoredMeta.touched, List.filter_filter]

theorem touch_forall2 (n now : Nat) (l : List Doc) :
    List.Forall₂
      (fun e e' => e'.loki = e.loki ∧ e'.name = e.name ∧ e'.version = e.version ∧
        e'.host = e.host ∧ e'.port = e.port ∧
        e'.meta.attrs.filter (fun kv => decide (kv.1 ≠ "updated"))
          = e.meta.attrs.filter (fun kv => decide (kv.1 ≠ "updated")) ∧
        e'.meta.version = e.meta.version ∧ e'.meta.created = e.meta.created ∧
        (e' = e ∨
          (e.loki = n ∧ e' = { e with _heartbeat := now, meta := e.meta.touched now })) ∧
        (e.loki ≠ n → e' = e))
      l (touch n now l) := by
  induction l with
  | nil => exact List.Forall₂.nil
  | cons a as ih =>
    simp only [touch]
    split
    · next ha =>
      refine List.Forall₂.cons
        ⟨rfl, rfl, rfl, rfl, rfl, touched_attrs a.meta now, rfl, rfl, Or.inr ⟨ha, rfl⟩,
          fun hne => absurd ha hne⟩ ?_
      exact List.forall₂_same.2
        (fun e _ => ⟨rfl, rfl, rfl, rfl, rfl, rfl, rfl, rfl, Or.inl rfl, fun _ => rfl⟩)
    · exact List.Forall₂.cons
        ⟨rfl, rfl, rfl, rfl, rfl, rfl, rfl, rfl, Or.inl rfl, fun _ => rfl⟩ ih

theorem touch_mem_found (n now : Nat) (l : List Doc) (inst : Doc)
    (h : l.find? (fun d => decide (some n = some d.loki)) = some inst) :
    { inst with _heartbeat := now, meta := inst.meta.touched now } ∈ touch n now l := by
  induction l with
  | nil => simp at h
  | cons a as ih =>
    simp only [touch]
    by_cases ha : a.loki = n
    · have : a = inst := by simpa [List.find?_cons, ha] using h
      subst this
      rw [if_pos ha]
      exact List.mem_cons_self _ _
    · have hne : ¬ n = a.loki := fun e => ha e.symm
      have h' : as.find? (fun d => decide (some n = some d.loki)) = some inst := by
        simpa [List.find?_cons, hne] using h
      rw [if_neg ha]
      exact List.mem_cons_of_mem _ (ih h')

/-- C7 (as stated, refuted): a heartbeat on the stored id 2 changes the `meta`
of that record: the revision goes from 0 to 1 and the stamp `updated` is
set. -/
theorem serviceHeartbeat_changes_meta :
    (sampleStore.data.map fun d => (d.loki, d.meta))
      = [(1, { attrs := [], version := 0, created := 10, revision := 0, updated := none }),
         (2, { attrs := [], version := 0, created := 11, revision := 0, updated := none })] ∧
    ((serviceHeartbeat sampleStore 20 (some 2)).1.data.map fun d => (d.loki, d.meta))
      = [(1, { attrs := [], version := 0, created := 10, revision := 0, updated := none }),
         (2, { attrs := [], version := 0, created := 11, revision := 1,
               updated := some 20 })] := by
  decide

/-- C7 (amended): a heartbeat on the id of a stored instance is answered with
202 and the refreshed record; it changes the heartbeat timestamp of that
record and, inside its `meta`, the stamps of the store (`revision` is
incremented, `updated` is set to the current time); record by record, id,
name, version, host, port and every other attribute of `meta` are as before,
every record with another id is as before, no record is added or removed, and
the counter is as before.  A heartbeat on an id that no stored instance has is
answered with 404 and leaves the store as it is. -/
theorem serviceHeartbeat_frame (c : Collection) (now : Nat) (id : JsNumber) :
    ((∀ d ∈ c.data, id ≠ some d.loki) →
      serviceHeartbeat c now id
        = (c, { status := 404, body := .message "No such instance" })) ∧
    ((∃ d ∈ c.data, id = some d.loki) →
      (serviceHeartbeat c now id).2.status = 202 ∧
      (serviceHeartbeat c now id).1.maxId = c.maxId ∧
      List.Forall₂
        (fun e e' => e'.loki = e.loki ∧ e'.name = e.name ∧ e'.version = e.version ∧
          e'.host = e.host ∧ e'.port = e.port ∧
          e'.meta.attrs.filter (fun kv => decide (kv.1 ≠ "updated"))
            = e.meta.attrs.filter (fun kv => decide (kv.1 ≠ "updated")) ∧
          e'.meta.version = e.meta.version ∧ e'.meta.created = e.meta.created ∧
          (e' = e ∨
            (id = some e.loki ∧
              e' = { e with _heartbeat := now, meta := e.meta.touched now })) ∧
          (id ≠ some e.loki → e' = e))
        c.data (serviceHeartbeat c now id).1.data ∧
      ∃ e ∈ (serviceHeartbeat c now id).1.data,
        id = some e.loki ∧ e._heartbeat = now ∧ e.meta.updated = some now ∧
        (serviceHeartbeat c now id).2.body = .heartbeat e) := by
  constructor
  · intro h
    simp [serviceHeartbeat, (getInstanceById_eq_none_iff c id).2 h]
  · rintro ⟨d, hd, rfl⟩
    cases hg : getInstanceById c (some d.loki) with
    | none => exact absurd rfl ((getInstanceById_eq_none_iff c _).1 hg d hd)
    | some inst =>
      have hl : inst.loki = d.loki := by
        have := (getInstanceById_some hg).2
        simpa using this.symm
      rw [serviceHeartbeat_of_found c now d.loki inst hg]
      refine ⟨rfl, rfl, ?_, ?_⟩
      · refine (touch_forall2 d.loki now c.data).imp ?_
        rintro e e' ⟨h1, h2, h3, h4, h5, h6, h7, h8, h9, h10⟩
        refine ⟨h1, h2, h3, h4, h5, h6, h7, h8, ?_, fun hne => h10 ?_⟩
        · rcases h9 with h9 | ⟨h9, h9'⟩
          · exact Or.inl h9
          · exact Or.inr ⟨by rw [h9], h9'⟩
        · intro he
          exact hne (by rw [he])
      · have hf := hg
        rw [getInstanceById_eq_find] at hf
        refine ⟨_, touch_mem_found d.loki now c.data inst hf, ?_, rfl, rfl, rfl⟩
        simp [hl]

theorem serviceHeartbeat_frame_witness :
    ((∀ d ∈ sampleStore.data, some 7 ≠ some d.loki) ∧
      serviceHeartbeat sampleStore 20 (some 7)
        = (sampleStore, { status := 404, body := .message "No such instance" })) ∧
    ((∃ d ∈ sampleStore.data, some 2 = some d.loki) ∧
      (serviceHeartbeat sampleStore 20 (some 2)).2.status = 202 ∧
      (serviceHeartbeat sampleStore 20 (some 2)).1.maxId = sampleStore.maxId ∧
      List.Forall₂
        (fun e e' => e'.loki = e.loki ∧ e'.name = e.name ∧ e'.version = e.version ∧
          e'.host = e.host ∧ e'.port = e.port ∧
          e'.meta.attrs.filter (fun kv => decide (kv.1 ≠ "updated"))
            = e.meta.attrs.filter (fun kv => decide (kv.1 ≠ "updated")) ∧
          e'.meta.version = e.meta.version ∧ e'.meta.created = e.meta.created ∧
          (e' = e ∨
            (some 2 = some e.loki ∧
              e' = { e with _heartbeat := 20, meta := e.meta.touched 20 })) ∧
          (some 2 ≠ some e.loki → e' = e))
        sampleStore.data (serviceHeartbeat sampleStore 20 (some 2)).1.data ∧
      ∃ e ∈ (serviceHeartbeat sampleStore 20 (some 2)).1.data,
        some 2 = some e.loki ∧ e._heartbeat = 20 ∧ e.meta.updated = some 20 ∧
        (serviceHeartbeat sampleStore 20 (some 2)).2.body = .heartbeat e) :=
  ⟨⟨by decide, (serviceHeartbeat_frame sampleStore 20 (some 7)).1 (by decide)⟩,
    ⟨by decide, (serviceHeartbeat_frame sampleStore 20 (some 2)).2 (by decide)⟩⟩

end Kvasir
